import Mathlib

/-!
Verification development for the wandb retry/backoff engine and the
launch_add job-submission glue.

The retry engine (`wandb/sdk/lib/retry.py`) is exercised by
`tests/unit_tests/test_retry.py`; its implementation module is not part of
the source tree available here, so the engine is modelled from the
specification (sections 3 and 4 of spec.md), faithful to its words.
`launch_add.py` is present in the source tree and is embedded directly.

Durations and instants are natural numbers of seconds; failures
(Python exceptions) are values carrying an exception-class identifier
and a payload distinguishing instances of the same class.
-/

/-- A failure (Python exception): a class identifier plus a payload that
distinguishes distinct instances of the same class. -/
structure Exc where
  cls : Nat
  payload : Nat
deriving DecidableEq, Repr

instance exceptDecidableEq {ε α : Type} [DecidableEq ε] [DecidableEq α] :
    DecidableEq (Except ε α)
  | .error x, .error y =>
    if h : x = y then .isTrue (by rw [h])
    else .isFalse (fun hc => h (Except.error.inj hc))
  | .error _, .ok _ => .isFalse (fun hc => Except.noConfusion hc)
  | .ok _, .error _ => .isFalse (fun hc => Except.noConfusion hc)
  | .ok x, .ok y =>
    if h : x = y then .isTrue (by rw [h])
    else .isFalse (fun hc => h (Except.ok.inj hc))

/-! ## FilteredBackoff (spec section 4.3)

Modelled from the spec: `wandb/sdk/lib/retry.py` is not in the source tree.
"evaluate `filter(failure)`; if false, re-raise `failure` immediately
without touching the wrapped Backoff; if true, delegate to wrapped Backoff
and return its result verbatim (including propagating its own exhaustion
re-raise)."  The wrapped Backoff is an arbitrary stateful
`next_sleep_or_reraise` function; `.error` models a raise. -/
def FilteredBackoff.next_sleep_or_reraise {σ : Type}
    (filt : Exc → Bool) (wrapped : σ → Exc → Except Exc Nat × σ)
    (ws : σ) (e : Exc) : Except Exc Nat × σ :=
  if filt e then wrapped ws e else (.error e, ws)

/-- An instrumented wrapped Backoff: behaves like `behavior` and records, in
its state, the list of failures it has been called with (so call counts and
arguments are observable). -/
def countingWrapped (behavior : Exc → Except Exc Nat) :
    List Exc → Exc → Except Exc Nat × List Exc :=
  fun log e => (behavior e, log ++ [e])

/-! ## RetryLoopLoggingBackoff (spec section 4.4)

Modelled from the spec: `wandb/sdk/lib/retry.py` is not in the source tree.
"on scope entry, clear any first-failure marker for this loop. On each
`next_sleep_or_reraise(failure)` call, if no marker is set, record `failure`
and the current instant, and invoke `on_loop_start(failure)`. Delegate to
the wrapped Backoff and return its result (propagating exhaustion). On
scope exit, if a marker was set, invoke `on_loop_end(now() - marker_instant)`
exactly once; if no failures occurred during the scope, `on_loop_end` is
not called."  Callback invocations are modelled as an event log. -/

/-- A callback invocation of a `RetryLoopLoggingBackoff`: either
`on_loop_start` with the triggering failure, or `on_loop_end` with the
elapsed duration. -/
inductive LEvent where
  | loopStart (e : Exc)
  | loopEnd (dt : Nat)
deriving DecidableEq, Repr

/-- The mutable state of a `RetryLoopLoggingBackoff`: the first-failure
marker (failure and the instant it was observed) and the log of callback
invocations made so far. -/
structure LoggingState where
  marker : Option (Exc × Nat)
  events : List LEvent
deriving DecidableEq, Repr

/-- Scope entry: clear the first-failure marker. -/
def RetryLoopLoggingBackoff.enter (ls : LoggingState) : LoggingState :=
  { ls with marker := none }

/-- Scope exit at instant `now`: if a marker was set, invoke `on_loop_end`
with the elapsed time since the marker instant; otherwise do nothing. -/
def RetryLoopLoggingBackoff.exitScope (ls : LoggingState) (now : Nat) :
    LoggingState :=
  match ls.marker with
  | none => ls
  | some (_, t) => { ls with events := ls.events ++ [LEvent.loopEnd (now - t)] }

/-- One `next_sleep_or_reraise(failure)` call at instant `now`: if no marker
is set, record the failure and instant and invoke `on_loop_start`; then
delegate to the wrapped Backoff and return its result. -/
def RetryLoopLoggingBackoff.next_sleep_or_reraise {σ : Type}
    (w : σ → Exc → Except Exc Nat × σ) (st : LoggingState × σ)
    (now : Nat) (e : Exc) : Except Exc Nat × (LoggingState × σ) :=
  let ls := st.1
  let ls' :=
    match ls.marker with
    | none => { marker := some (e, now),
                events := ls.events ++ [LEvent.loopStart e] : LoggingState }
    | some _ => ls
  let r := w st.2 e
  (r.1, (ls', r.2))

/-- The sequence of `next_sleep_or_reraise` calls a retry loop makes inside
one scope: calls happen at the given instants with the given failures, and
the loop stops at the first call on which the Backoff re-raises. -/
def scopeCalls {σ : Type} (w : σ → Exc → Except Exc Nat × σ) :
    LoggingState × σ → List (Nat × Exc) → LoggingState × σ
  | st, [] => st
  | st, (now, e) :: rest =>
    match RetryLoopLoggingBackoff.next_sleep_or_reraise w st now e with
    | (.error _, st') => st'
    | (.ok _, st') => scopeCalls w st' rest

/-- A whole scoped retry loop: enter the scope, make the calls, exit the
scope at instant `exitNow`; the result is the log of callback invocations. -/
def runScope {σ : Type} (w : σ → Exc → Except Exc Nat × σ) (ws0 : σ)
    (calls : List (Nat × Exc)) (exitNow : Nat) : List LEvent :=
  let st := scopeCalls w (RetryLoopLoggingBackoff.enter ⟨none, []⟩, ws0) calls
  (RetryLoopLoggingBackoff.exitScope st.1 exitNow).events

/-! ## launch_add (src/wandb/sdk/launch/launch_add.py)

`push_to_queue` wraps `api.push_to_run_queue` in a try/except returning
`None` on any (catchable) exception; `_launch_add` raises
`Exception("Error adding run to queue")` when the result is `None` or
lacks the `"runQueueItemId"` key, and otherwise builds the queued run from
that id.  The api call is modelled as `Except Nat (Option ApiResult)`:
`.error` is a raised exception, `.ok` the returned value (possibly `None`);
dictionary keys are numeric identifiers. -/

/-- The result dictionary of `api.push_to_run_queue`, as an association
list from key identifiers to values. -/
abbrev ApiResult := List (Nat × Nat)

/-- The key identifier standing for the string key `"runQueueItemId"`. -/
def runQueueItemIdKey : Nat := 0

/-- `push_to_queue` (launch_add.py lines 19-25): call the api; on any
exception return `None`, otherwise return the api's result. -/
def push_to_queue (call : Except Nat (Option ApiResult)) : Option ApiResult :=
  match call with
  | .error _ => none
  | .ok r => r

/-- The outcome of `_launch_add` after `push_to_queue` returns. -/
inductive LaunchOutcome where
  | queuedRun (runQueueItemId : Nat)
  | errorAddingRunToQueue
deriving DecidableEq, Repr

/-- The tail of `_launch_add` (launch_add.py lines 210-234): if the pushed
result is `None` or lacks `"runQueueItemId"`, raise
`Exception("Error adding run to queue")`; otherwise construct the queued
run from `res["runQueueItemId"]`. -/
def launchAddSubmit (call : Except Nat (Option ApiResult)) : LaunchOutcome :=
  match push_to_queue call with
  | none => LaunchOutcome.errorAddingRunToQueue
  | some res =>
    match List.lookup runQueueItemIdKey res with
    | none => LaunchOutcome.errorAddingRunToQueue
    | some rid => LaunchOutcome.queuedRun rid

/-! ## ExponentialBackoff (spec sections 3 and 4.2)

Modelled from the spec: `wandb/sdk/lib/retry.py` is not in the source tree.
State: `initial_sleep`, `max_sleep`, optional `max_retries`, optional
`timeout_at`; mutable counters: attempts made and current sleep value.
`next_sleep_or_reraise(failure)`: (1) if `max_retries` is set and attempts
made ≥ `max_retries`, re-raise; (2) if `timeout_at` is set and
`now() >= timeout_at`, re-raise; (3) otherwise record one more attempt,
compute the sleep as `min(current_sleep * 2, max_sleep)` with the very
first call returning `initial_sleep` unmodified, update the current-sleep
state, and return the duration. -/

/-- The state of an `ExponentialBackoff`: configuration plus the two
mutable counters (attempts made, current sleep value).  A freshly
constructed instance has `num_attempts = 0` (the `current_sleep` field is
meaningful only once `num_attempts ≠ 0`). -/
structure ExponentialBackoff where
  initial_sleep : Nat
  max_sleep : Nat
  max_retries : Option Nat
  timeout_at : Option Nat
  num_attempts : Nat
  current_sleep : Nat
deriving DecidableEq, Repr

/-- `ExponentialBackoff.next_sleep_or_reraise`, taking the current instant
`now` explicitly (the clock abstraction's `now()`); `.error` models the
re-raise of the supplied failure. -/
def ExponentialBackoff.next_sleep_or_reraise (b : ExponentialBackoff)
    (now : Nat) (e : Exc) : Except Exc (Nat × ExponentialBackoff) :=
  if (b.max_retries.map (fun mr => decide (mr ≤ b.num_attempts))).getD false then
    .error e
  else if (b.timeout_at.map (fun ta => decide (ta ≤ now))).getD false then
    .error e
  else
    let s := if b.num_attempts = 0 then b.initial_sleep
             else min (b.current_sleep * 2) b.max_sleep
    .ok (s, { b with num_attempts := b.num_attempts + 1, current_sleep := s })

/-- A sequence of `next_sleep_or_reraise` calls, one per instant in `nows`,
threading the backoff state; stops with `.error` at the first re-raise,
otherwise returns the list of sleep durations and the final state. -/
def ExponentialBackoff.runCalls (e : Exc) :
    ExponentialBackoff → List Nat → Except Exc (List Nat × ExponentialBackoff)
  | b, [] => .ok ([], b)
  | b, now :: rest =>
    match b.next_sleep_or_reraise now e with
    | .error e2 => .error e2
    | .ok (s, b2) =>
      match ExponentialBackoff.runCalls e b2 rest with
      | .error e2 => .error e2
      | .ok (l, b3) => .ok (s :: l, b3)

/-- The durations returned by a sequence of `next_sleep_or_reraise` calls
(the final state projected away). -/
def ExponentialBackoff.runSleeps (e : Exc) (b : ExponentialBackoff)
    (nows : List Nat) : Except Exc (List Nat) :=
  (ExponentialBackoff.runCalls e b nows).map Prod.fst

/-- The sleep durations an `ExponentialBackoff` with cap `mx` produces by
repeated doubling starting after a current sleep of `cur`. -/
def expFrom (mx : Nat) : Nat → Nat → List Nat
  | _, 0 => []
  | cur, n + 1 => min (cur * 2) mx :: expFrom mx (min (cur * 2) mx) n

/-- The result of a retry loop driven by an `ExponentialBackoff` with a
deadline: either the failure was re-raised at instant `finalNow` (with
`lastSleep` the duration of the last sleep taken, if any), or the supplied
fuel ran out before the loop stopped. -/
inductive BLoop where
  | reraised (finalNow : Nat) (lastSleep : Option Nat)
  | outOfFuel (finalNow : Nat)
deriving DecidableEq, Repr

/-- Whether the loop stopped by re-raising the failure. -/
def BLoop.isReraised : BLoop → Bool
  | .reraised _ _ => true
  | .outOfFuel _ => false

/-- The simulated instant at which the loop stopped. -/
def BLoop.finalNow : BLoop → Nat
  | .reraised t _ => t
  | .outOfFuel t => t

/-- The duration of the last sleep taken before the loop stopped. -/
def BLoop.lastSleep : BLoop → Option Nat
  | .reraised _ ls => ls
  | .outOfFuel _ => none

/-- A retry loop against an always-failing operation, driven by an
`ExponentialBackoff`: each iteration consults the backoff (the deadline
check happens before sleeping) and, if a duration is returned, sleeps it —
advancing the simulated clock by that duration — and retries.  `fuel`
bounds the number of iterations so the model is total. -/
def backoffLoop (e : Exc) :
    Nat → ExponentialBackoff → Nat → Option Nat → BLoop
  | 0, _, now, _ => .outOfFuel now
  | fuel + 1, b, now, last =>
    match b.next_sleep_or_reraise now e with
    | .error _ => .reraised now last
    | .ok (s, b2) => backoffLoop e fuel b2 (now + s) (some s)

/-- Whether a retry loop driven by `b` from instant `now0` against an
always-failing operation ever stops (by re-raising the failure). -/
def backoffLoopReraises (e : Exc) (b : ExponentialBackoff) (now0 : Nat) : Prop :=
  ∃ fuel, (backoffLoop e fuel b now0 none).isReraised = true

/-- Invariant of a deadline-only `ExponentialBackoff` with positive sleeps:
the deadline is `T`, there is no retry-count ceiling, and the next sleep the
backoff would return is positive. -/
def BInv (T : Nat) (b : ExponentialBackoff) : Prop :=
  b.timeout_at = some T ∧ b.max_retries = none ∧ 0 < b.max_sleep ∧
  (b.num_attempts = 0 → 0 < b.initial_sleep) ∧
  (b.num_attempts ≠ 0 → 0 < b.current_sleep)

/-! ## Synchronous Retry driver (spec sections 3 and 4.5)

Modelled from the spec: `wandb/sdk/lib/retry.py` is not in the source tree.
Per invocation, on each failure: (1) a failure whose class is not in
`retryable_exceptions` is re-raised immediately; (2) the attempt counter is
incremented and compared against the effective ceiling (call-time override
or configured default) — exceeding it re-raises; (3) if `retry_timedelta`
is set and the elapsed time since the invocation started exceeds it,
re-raise; (4) if `check_retry_fn` returns a non-null duration, a secondary
deadline is anchored at "now + duration" on the first such failure and
never re-anchored, and `now() >= anchor` re-raises; (5) otherwise the
driver sleeps a backoff-computed duration (exponential, capped — the spec
fixes no parameters, so the model uses a 1-second base and 60-second cap)
and retries.  Counters reset at the start of each top-level call. -/

/-- The base of the sync driver's exponential sleep schedule (model
parameter; the spec says only "exponential, capped"). -/
def SLEEP_BASE : Nat := 1

/-- The cap of the sync driver's exponential sleep schedule (model
parameter; the spec says only "exponential, capped"). -/
def SLEEP_MAX : Nat := 60

/-- Configuration of a `Retry` instance: the retryable exception classes,
the default retry ceiling, the optional overall deadline, and the
per-failure secondary-window function (`none` models both an absent
`check_retry_fn` and a null return). -/
structure RetryConfig where
  retryable : List Nat
  num_retries : Nat
  retry_timedelta : Option Nat
  check_retry : Exc → Option Nat

/-- Per-invocation mutable state of the sync driver: the simulated clock,
the invocation start instant, the attempt counter, the secondary-deadline
anchor, the next sleep duration, the operation-call counter, and the
history of sleeps taken. -/
structure RetryState where
  now : Nat
  start : Nat
  attempts : Nat
  secondary : Option Nat
  sleep : Nat
  calls : Nat
  sleeps : List Nat
deriving DecidableEq, Repr

/-- Outcome of one `Retry` invocation: success with a value, propagation of
a failure, or fuel exhaustion of the model's loop bound. -/
inductive RetryResult where
  | ok (v : Nat) (s : RetryState)
  | failed (e : Exc) (s : RetryState)
  | outOfFuel (s : RetryState)
deriving DecidableEq, Repr

/-- The driver state at the end of the invocation. -/
def RetryResult.finalState : RetryResult → RetryState
  | .ok _ s => s
  | .failed _ s => s
  | .outOfFuel s => s

/-- How many times the operation was called during the invocation. -/
def RetryResult.callCount (r : RetryResult) : Nat :=
  r.finalState.calls

/-- The simulated instant at the end of the invocation. -/
def RetryResult.finalNow (r : RetryResult) : Nat :=
  r.finalState.now

/-- The sleeps taken during the invocation. -/
def RetryResult.sleepsList (r : RetryResult) : List Nat :=
  r.finalState.sleeps

/-- Whether the invocation propagated exactly the failure `e`. -/
def RetryResult.isFailedWith : RetryResult → Exc → Bool
  | .failed e0 _, e => decide (e0 = e)
  | _, _ => false

/-- The sync driver's reaction to one failure `e` (spec section 4.5):
re-raise (`.error`) or update the state — including anchoring the
secondary deadline on the first qualifying failure only — and sleep. -/
def retryStep (cfg : RetryConfig) (ceiling : Nat) (e : Exc)
    (s : RetryState) : Except Exc RetryState :=
  if e.cls ∈ cfg.retryable then
    if ceiling < s.attempts + 1 then .error e
    else if (cfg.retry_timedelta.map (fun td => decide (td < s.now - s.start))).getD false then
      .error e
    else
      match cfg.check_retry e with
      | none =>
        .ok { s with
              attempts := s.attempts + 1,
              now := s.now + s.sleep,
              sleep := min (s.sleep * 2) SLEEP_MAX,
              sleeps := s.sleeps ++ [s.sleep] }
      | some d =>
        let anchor := s.secondary.getD (s.now + d)
        if anchor ≤ s.now then .error e
        else
          .ok { s with
                attempts := s.attempts + 1,
                secondary := some anchor,
                now := s.now + s.sleep,
                sleep := min (s.sleep * 2) SLEEP_MAX,
                sleeps := s.sleeps ++ [s.sleep] }
  else .error e

/-- The sync driver's invocation loop: call the operation (which receives
the call index); on success return, on failure consult `retryStep` and
either propagate or sleep and retry.  `fuel` bounds the number of
iterations so the model is total. -/
def retryLoop (cfg : RetryConfig) (ceiling : Nat)
    (op : Nat → Except Exc Nat) : Nat → RetryState → RetryResult
  | 0, s => .outOfFuel s
  | fuel + 1, s =>
    match op s.calls with
    | .ok v => .ok v { s with calls := s.calls + 1 }
    | .error e =>
      match retryStep cfg ceiling e { s with calls := s.calls + 1 } with
      | .error e2 => .failed e2 { s with calls := s.calls + 1 }
      | .ok s2 => retryLoop cfg ceiling op fuel s2

/-- One top-level call of a `Retry` instance, starting at instant
`startNow`, with an optional call-time `num_retries` override taking
precedence over the configured default for this call only.  All per-call
counters start fresh (spec: counters reset at the start of each top-level
call). -/
def Retry.call (cfg : RetryConfig) (op : Nat → Except Exc Nat)
    (retriesOverride : Option Nat) (fuel startNow : Nat) : RetryResult :=
  retryLoop cfg (retriesOverride.getD cfg.num_retries) op fuel
    { now := startNow, start := startNow, attempts := 0, secondary := none,
      sleep := SLEEP_BASE, calls := 0, sleeps := [] }

/-- The configuration of the secondary-timeout scenario: retryable class 0,
`num_retries = 10000`, `retry_timedelta` = 7 hours (25200 s),
`check_retry_fn` returning a 10-minute (600 s) window for class-0
failures. -/
def cfgSecondary : RetryConfig :=
  { retryable := [0], num_retries := 10000, retry_timedelta := some 25200,
    check_retry := fun e => if e.cls = 0 then some 600 else none }

/-! ## retry_async (spec sections 3 and 4.6)

Modelled from the spec: `wandb/sdk/lib/retry.py` is not in the source tree.
"enters the Backoff's scope once, then repeatedly invokes the operation
with its arguments. On success, exits the scope and returns the result. On
failure, calls `next_sleep_or_reraise(failure)`; if it returns a duration,
suspends for that duration and retries; if it propagates, the scope is
exited and the failure propagates to the caller."  The driver's observable
actions (scope enter/exit, operation calls with their arguments, suspend
durations) are recorded as an event trace. -/

/-- A Backoff capability as used by `retry_async`: a stateful
`next_sleep_or_reraise`. -/
structure BackoffM (σ : Type) where
  next : σ → Exc → Except Exc Nat × σ

/-- An observable action of the async driver: scope entry, scope exit, an
operation call with its (verbatim-forwarded) arguments, or a cooperative
suspension for a duration. -/
inductive AEvent (Args : Type) where
  | enter
  | exitScope
  | callOp (args : Args)
  | suspend (d : Nat)
deriving DecidableEq, Repr

/-- A Backoff that follows a script: each call pops the next entry (a
duration to return or a failure to raise). -/
def scriptedBackoff : BackoffM (List (Except Exc Nat)) :=
  ⟨fun s e =>
    match s with
    | [] => (.error e, [])
    | r :: rest => (r, rest)⟩

/-- The retry loop of `retry_async` (scope handling excluded): call the
operation with the forwarded arguments; on success stop; on failure consult
the Backoff and either stop (propagating) or suspend and retry.  Returns
the event trace and the outcome (`none` = fuel ran out). -/
def retryAsyncLoop {σ Args : Type} (bk : BackoffM σ)
    (op : Nat → Args → Except Exc Nat) (args : Args) :
    Nat → σ → Nat → List (AEvent Args) × Option (Except Exc Nat)
  | 0, _, _ => ([], none)
  | fuel + 1, s, i =>
    match op i args with
    | .ok v => ([AEvent.callOp args], some (.ok v))
    | .error e =>
      match bk.next s e with
      | (.error e2, _) => ([AEvent.callOp args], some (.error e2))
      | (.ok d, s2) =>
        let r := retryAsyncLoop bk op args fuel s2 (i + 1)
        (AEvent.callOp args :: AEvent.suspend d :: r.1, r.2)

/-- `retry_async`: enter the Backoff's scope once, run the retry loop, and
exit the scope once whether the loop ended in success or propagation. -/
def retry_async {σ Args : Type} (bk : BackoffM σ) (s0 : σ)
    (op : Nat → Args → Except Exc Nat) (args : Args) (fuel : Nat) :
    List (AEvent Args) × Option (Except Exc Nat) :=
  let r := retryAsyncLoop bk op args fuel s0 0
  (AEvent.enter :: r.1 ++ (match r.2 with
    | some _ => [AEvent.exitScope]
    | none => []), r.2)

/-! ## Theorems -/

/-- C6: for every FilteredBackoff and every failure, if the filter predicate
rejects the failure then `next_sleep_or_reraise` re-raises that same failure
and the wrapped Backoff is called zero times (its call log is unchanged);
if the predicate accepts it, the wrapped Backoff is called exactly once with
that failure (one entry appended to its call log) and its result — duration
or its own re-raise — is returned verbatim. -/
theorem filtered_backoff_gate (filt : Exc → Bool)
    (behavior : Exc → Except Exc Nat) (log : List Exc) (e : Exc) :
    FilteredBackoff.next_sleep_or_reraise filt (countingWrapped behavior) log e
      = if filt e then (behavior e, log ++ [e]) else (.error e, log) := by
  rfl

/-- Once the first-failure marker is set, further calls in the scope change
neither the marker nor the callback log. -/
theorem scopeCalls_marker_set {σ : Type} (w : σ → Exc → Except Exc Nat × σ) :
    ∀ (calls : List (Nat × Exc)) (ls : LoggingState) (ws : σ) (m : Exc × Nat),
      ls.marker = some m → (scopeCalls w (ls, ws) calls).1 = ls := by
  intro calls
  induction calls with
  | nil => intro ls ws m hm; rfl
  | cons c rest ih =>
    intro ls ws m hm
    obtain ⟨now, e⟩ := c
    unfold scopeCalls RetryLoopLoggingBackoff.next_sleep_or_reraise
    simp only [hm]
    cases hw : (w ws e).1 with
    | error e' => simp [hw]
    | ok d =>
      simp only [hw]
      exact ih ls (w ws e).2 m hm

/-- C7: for every scoped RetryLoopLoggingBackoff loop, if at least one
failure is observed then `on_loop_start` fires exactly once, with the first
failure, and `on_loop_end` fires exactly once, on scope exit, with the
elapsed time between the first failure and release; with no failures,
neither callback fires. -/
theorem retry_loop_logging_callbacks {σ : Type}
    (w : σ → Exc → Except Exc Nat × σ) (ws0 : σ)
    (calls : List (Nat × Exc)) (exitNow : Nat) :
    runScope w ws0 calls exitNow
      = match calls with
        | [] => []
        | (n0, e0) :: _ => [LEvent.loopStart e0, LEvent.loopEnd (exitNow - n0)] := by
  cases calls with
  | nil => rfl
  | cons c rest =>
    obtain ⟨n0, e0⟩ := c
    show (RetryLoopLoggingBackoff.exitScope
      (scopeCalls w (RetryLoopLoggingBackoff.enter ⟨none, []⟩, ws0)
        ((n0, e0) :: rest)).1 exitNow).events = _
    unfold scopeCalls RetryLoopLoggingBackoff.next_sleep_or_reraise
      RetryLoopLoggingBackoff.enter
    simp only []
    cases hw : (w ws0 e0).1 with
    | error e' =>
      simp only [hw]
      rfl
    | ok d =>
      simp only [hw, List.nil_append]
      rw [scopeCalls_marker_set w rest
        ⟨some (e0, n0), [LEvent.loopStart e0]⟩ (w ws0 e0).2 (e0, n0) rfl]
      rfl

/-- C10: `push_to_queue` never propagates an exception (it returns `None`
for every exception raised by `api.push_to_run_queue`); `_launch_add`
raises `Exception("Error adding run to queue")` exactly when
`push_to_queue` returns `None` or the result lacks the `"runQueueItemId"`
key, and otherwise returns the queued run built from that id. -/
theorem launch_add_error_handling (call : Except Nat (Option ApiResult)) :
    (∀ mg, call = .error mg → push_to_queue call = none) ∧
    (launchAddSubmit call = LaunchOutcome.errorAddingRunToQueue ↔
      push_to_queue call = none ∨
      ∃ res, push_to_queue call = some res ∧
        List.lookup runQueueItemIdKey res = none) ∧
    (∀ res rid, push_to_queue call = some res →
      List.lookup runQueueItemIdKey res = some rid →
      launchAddSubmit call = LaunchOutcome.queuedRun rid) := by
  refine ⟨fun mg h => by rw [h]; rfl, ?_, ?_⟩
  · cases call with
    | error mg => exact ⟨fun _ => Or.inl rfl, fun _ => rfl⟩
    | ok r =>
      cases r with
      | none => exact ⟨fun _ => Or.inl rfl, fun _ => rfl⟩
      | some res =>
        cases hl : List.lookup runQueueItemIdKey res with
        | none =>
          refine ⟨fun _ => Or.inr ⟨res, rfl, hl⟩, fun _ => ?_⟩
          show (match List.lookup runQueueItemIdKey res with
            | none => LaunchOutcome.errorAddingRunToQueue
            | some rid => LaunchOutcome.queuedRun rid)
            = LaunchOutcome.errorAddingRunToQueue
          rw [hl]
        | some rid =>
          constructor
          · intro h
            rw [show launchAddSubmit (Except.ok (some res))
                  = LaunchOutcome.queuedRun rid from by
                show (match List.lookup runQueueItemIdKey res with
                  | none => LaunchOutcome.errorAddingRunToQueue
                  | some r2 => LaunchOutcome.queuedRun r2)
                  = LaunchOutcome.queuedRun rid
                rw [hl]] at h
            exact LaunchOutcome.noConfusion h
          · rintro (h | ⟨res2, hr, hn⟩)
            · exact Option.noConfusion h
            · have hr2 : res = res2 := by
                have hr3 : (some res : Option ApiResult) = some res2 := hr
                injection hr3
              subst hr2
              rw [hl] at hn
              exact Option.noConfusion hn
  · intro res rid hres hl
    unfold launchAddSubmit
    rw [hres]
    show (match List.lookup runQueueItemIdKey res with
      | none => LaunchOutcome.errorAddingRunToQueue
      | some r2 => LaunchOutcome.queuedRun r2) = LaunchOutcome.queuedRun rid
    rw [hl]

/-- C10 witness: a successful push whose result carries `runQueueItemId = 7`
yields the queued run with id 7. -/
theorem launch_add_error_handling_witness :
    launchAddSubmit (.ok (some [(runQueueItemIdKey, 7)]))
      = LaunchOutcome.queuedRun 7 :=
  (launch_add_error_handling (.ok (some [(runQueueItemIdKey, 7)]))).2.2
    [(runQueueItemIdKey, 7)] 7 rfl rfl

/-- Inversion of a successful `next_sleep_or_reraise` call: the returned
duration follows the first-call/doubling rule and the state is updated
accordingly. -/
theorem next_sleep_ok_inv {b : ExponentialBackoff} {now : Nat} {e : Exc}
    {s : Nat} {b2 : ExponentialBackoff}
    (h : b.next_sleep_or_reraise now e = .ok (s, b2)) :
    s = (if b.num_attempts = 0 then b.initial_sleep
         else min (b.current_sleep * 2) b.max_sleep)
    ∧ b2 = { b with num_attempts := b.num_attempts + 1, current_sleep := s } := by
  unfold ExponentialBackoff.next_sleep_or_reraise at h
  split at h
  · exact absurd h (by simp)
  · split at h
    · exact absurd h (by simp)
    · simp only [Except.ok.injEq, Prod.mk.injEq] at h
      refine ⟨h.1.symm, ?_⟩
      rw [← h.2, h.1]

/-- Every duration produced by the doubling rule is at most the cap. -/
theorem expFrom_le_max (mx : Nat) :
    ∀ (n cur : Nat), ∀ x ∈ expFrom mx cur n, x ≤ mx := by
  intro n
  induction n with
  | zero => intro cur x hx; cases hx
  | succ n ih =>
    intro cur x hx
    rcases List.mem_cons.mp hx with h | h
    · rw [h]; exact Nat.min_le_right _ _
    · exact ih _ x h

/-- Starting at or below the cap, the doubling rule is non-decreasing. -/
theorem expFrom_chain_le (mx : Nat) :
    ∀ (n cur : Nat), cur ≤ mx →
      List.Chain' (fun a c => a ≤ c) (cur :: expFrom mx cur n) := by
  intro n
  induction n with
  | zero => intro cur _; exact List.chain'_singleton cur
  | succ n ih =>
    intro cur hc
    show List.Chain' _ (cur :: min (cur * 2) mx :: expFrom mx (min (cur * 2) mx) n)
    rw [List.chain'_cons]
    exact ⟨Nat.le_min.mpr ⟨by omega, hc⟩, ih (min (cur * 2) mx) (Nat.min_le_right _ _)⟩

/-- The doubling recurrence itself, as a chain relation. -/
theorem expFrom_chain_rec (mx : Nat) :
    ∀ (n cur : Nat),
      List.Chain' (fun a c => c = min (a * 2) mx) (cur :: expFrom mx cur n) := by
  intro n
  induction n with
  | zero => intro cur; exact List.chain'_singleton cur
  | succ n ih =>
    intro cur
    show List.Chain' _ (cur :: min (cur * 2) mx :: expFrom mx (min (cur * 2) mx) n)
    rw [List.chain'_cons]
    exact ⟨rfl, ih (min (cur * 2) mx)⟩

/-- After the first call, every successful call sequence returns exactly the
doubling-rule durations continued from the current sleep value. -/
theorem runCalls_ok_sleeps (e : Exc) :
    ∀ (nows : List Nat) (b : ExponentialBackoff) (l : List Nat)
      (b2 : ExponentialBackoff),
      b.num_attempts ≠ 0 →
      ExponentialBackoff.runCalls e b nows = .ok (l, b2) →
      l = expFrom b.max_sleep b.current_sleep nows.length := by
  intro nows
  induction nows with
  | nil =>
    intro b l b2 _ h
    simp only [ExponentialBackoff.runCalls, Except.ok.injEq, Prod.mk.injEq] at h
    rw [← h.1]
    rfl
  | cons now rest ih =>
    intro b l b2 hna h
    unfold ExponentialBackoff.runCalls at h
    split at h
    · exact absurd h (by simp)
    · rename_i s b1 hn
      split at h
      · exact absurd h (by simp)
      · rename_i l1 b3 hr
        obtain ⟨hs, hb1⟩ := next_sleep_ok_inv hn
        rw [if_neg hna] at hs
        simp only [Except.ok.injEq, Prod.mk.injEq] at h
        have hrec := ih b1 l1 b3 (by rw [hb1]; simp) hr
        rw [← h.1, hrec, hb1]
        show s :: expFrom b.max_sleep s rest.length
          = expFrom b.max_sleep b.current_sleep (rest.length + 1)
        rw [hs]
        rfl

/-- C3 (amended with `initial_sleep ≤ max_sleep`): across any sequence of
non-exhausting `next_sleep_or_reraise` calls of a fresh ExponentialBackoff
whose `initial_sleep` does not exceed `max_sleep`, the returned durations
are monotonically non-decreasing, never exceed `max_sleep`, the first call
returns `initial_sleep` unmodified, and each subsequent call returns
`min(previous * 2, max_sleep)`. -/
theorem exp_backoff_monotone_capped (b : ExponentialBackoff) (e : Exc)
    (nows : List Nat) (l : List Nat) (b2 : ExponentialBackoff)
    (hfresh : b.num_attempts = 0) (hle : b.initial_sleep ≤ b.max_sleep)
    (hok : ExponentialBackoff.runCalls e b nows = .ok (l, b2)) :
    (l = [] ∨ l.head? = some b.initial_sleep) ∧
    List.Chain' (fun a c => a ≤ c) l ∧
    (∀ x ∈ l, x ≤ b.max_sleep) ∧
    List.Chain' (fun a c => c = min (a * 2) b.max_sleep) l := by
  cases nows with
  | nil =>
    simp only [ExponentialBackoff.runCalls, Except.ok.injEq, Prod.mk.injEq] at hok
    rw [← hok.1]
    exact ⟨Or.inl rfl, by simp, by simp, by simp⟩
  | cons now rest =>
    unfold ExponentialBackoff.runCalls at hok
    split at hok
    · exact absurd hok (by simp)
    · rename_i s b1 hn
      split at hok
      · exact absurd hok (by simp)
      · rename_i l1 b3 hr
        obtain ⟨hs, hb1⟩ := next_sleep_ok_inv hn
        rw [if_pos hfresh] at hs
        simp only [Except.ok.injEq, Prod.mk.injEq] at hok
        have hrec := runCalls_ok_sleeps e rest b1 l1 b3 (by rw [hb1]; simp) hr
        have hmax : b1.max_sleep = b.max_sleep := by rw [hb1]
        have hcur : b1.current_sleep = s := by rw [hb1]
        rw [hmax, hcur, hs] at hrec
        rw [← hok.1, hrec, hs]
        refine ⟨Or.inr rfl, expFrom_chain_le b.max_sleep rest.length b.initial_sleep hle,
          ?_, expFrom_chain_rec b.max_sleep rest.length b.initial_sleep⟩
        intro x hx
        rcases List.mem_cons.mp hx with h | h
        · rw [h]; exact hle
        · exact expFrom_le_max b.max_sleep rest.length b.initial_sleep x h

/-- C3 witness: a fresh backoff with `initial_sleep = 1`, `max_sleep = 8`
run for three non-exhausting calls returns `[1, 2, 4]`, which satisfies all
four conclusions. -/
theorem exp_backoff_monotone_capped_witness :
    ([1, 2, 4] = ([] : List Nat) ∨ ([1, 2, 4] : List Nat).head? = some 1) ∧
    List.Chain' (fun a c => a ≤ c) [1, 2, 4] ∧
    (∀ x ∈ [1, 2, 4], x ≤ 8) ∧
    List.Chain' (fun a c => c = min (a * 2) 8) [1, 2, 4] :=
  exp_backoff_monotone_capped ⟨1, 8, none, none, 0, 0⟩ ⟨0, 0⟩ [5, 5, 5]
    [1, 2, 4] ⟨1, 8, none, none, 3, 4⟩ rfl (by decide) (by decide)

/-- C3 counterexample: with `initial_sleep = 3 > max_sleep = 1`, the first
call returns 3, exceeding `max_sleep`, and the second returns 1, so the
durations are not non-decreasing — the claim as stated fails without the
`initial_sleep ≤ max_sleep` restriction. -/
theorem exp_backoff_monotone_capped_counterexample :
    ExponentialBackoff.runSleeps ⟨0, 0⟩ ⟨3, 1, none, none, 0, 0⟩ [0, 0]
      = .ok [3, 1] ∧
    ¬ List.Chain' (fun a c => a ≤ c) [3, 1] ∧ ¬ ((3 : Nat) ≤ 1) := by
  refine ⟨by decide, ?_, by decide⟩
  rw [List.chain'_cons]
  simp

/-- A deadline-free `ExponentialBackoff` with `initial_sleep = max_sleep = S`
and `max_retries` allowing `m` more attempts returns `S` from exactly `m`
further calls and re-raises on the `(m+1)`th. -/
theorem runCalls_const_max (e : Exc) (S : Nat) :
    ∀ (m : Nat) (b : ExponentialBackoff) (now : Nat),
      b.max_retries = some (b.num_attempts + m) →
      b.timeout_at = none →
      b.initial_sleep = S → b.max_sleep = S →
      (b.num_attempts ≠ 0 → b.current_sleep = S) →
      (∃ b2, ExponentialBackoff.runCalls e b (List.replicate m now)
        = .ok (List.replicate m S, b2))
      ∧ ExponentialBackoff.runCalls e b (List.replicate (m + 1) now) = .error e := by
  intro m
  induction m with
  | zero =>
    intro b now hmr hta hini hmx hcur
    refine ⟨⟨b, rfl⟩, ?_⟩
    show ExponentialBackoff.runCalls e b [now] = .error e
    have hn : b.next_sleep_or_reraise now e = .error e := by
      unfold ExponentialBackoff.next_sleep_or_reraise
      rw [hmr]
      simp
    unfold ExponentialBackoff.runCalls
    rw [hn]
  | succ m ih =>
    intro b now hmr hta hini hmx hcur
    have hn : b.next_sleep_or_reraise now e
        = .ok (S, { b with num_attempts := b.num_attempts + 1,
                           current_sleep := S }) := by
      unfold ExponentialBackoff.next_sleep_or_reraise
      rw [hmr, hta]
      have hgt : ¬ (b.num_attempts + (m + 1) ≤ b.num_attempts) := by omega
      by_cases h0 : b.num_attempts = 0
      · simp [hgt, h0, hini]
      · have hc := hcur h0
        simp [hgt, h0, hc, hmx, Nat.min_eq_right (by omega : S ≤ S * 2)]
    have hb1 :
        ({ b with num_attempts := b.num_attempts + 1,
                  current_sleep := S } : ExponentialBackoff).max_retries
          = some (b.num_attempts + 1 + m) := by
      show b.max_retries = some (b.num_attempts + 1 + m)
      rw [hmr]
      congr 1
      omega
    obtain ⟨⟨b2, hok⟩, herr⟩ := ih
      { b with num_attempts := b.num_attempts + 1, current_sleep := S }
      now hb1 hta hini hmx (fun _ => rfl)
    constructor
    · refine ⟨b2, ?_⟩
      rw [List.replicate_succ]
      unfold ExponentialBackoff.runCalls
      simp only [hn, hok]
      rw [List.replicate_succ]
    · rw [show List.replicate (m + 1 + 1) now = now :: List.replicate (m + 1) now
        from List.replicate_succ ..]
      unfold ExponentialBackoff.runCalls
      simp only [hn, herr]

/-- C8: for every `k`, a fresh ExponentialBackoff with `max_retries = k`
(and `initial_sleep = max_sleep`, no deadline) returns a duration from
exactly `k` consecutive `next_sleep_or_reraise` calls and re-raises the
supplied failure on the `(k+1)`th call; with `k = 0` it re-raises on the
very first call. -/
theorem exp_backoff_max_retries (k : Nat) (b : ExponentialBackoff) (e : Exc)
    (now : Nat) (hfresh : b.num_attempts = 0) (hmr : b.max_retries = some k)
    (hta : b.timeout_at = none) (heq : b.initial_sleep = b.max_sleep) :
    ExponentialBackoff.runSleeps e b (List.replicate k now)
      = .ok (List.replicate k b.initial_sleep) ∧
    ExponentialBackoff.runSleeps e b (List.replicate (k + 1) now) = .error e := by
  obtain ⟨⟨b2, hok⟩, herr⟩ := runCalls_const_max e b.max_sleep k b now
    (by rw [hmr, hfresh, Nat.zero_add]) hta heq rfl (fun h => absurd hfresh h)
  constructor
  · unfold ExponentialBackoff.runSleeps
    rw [hok, heq]
    rfl
  · unfold ExponentialBackoff.runSleeps
    rw [herr]
    rfl

/-- C8 witness: with `k = 3`, `initial_sleep = max_sleep = 1`, three calls
return `[1, 1, 1]` and the fourth re-raises. -/
theorem exp_backoff_max_retries_witness :
    ExponentialBackoff.runSleeps ⟨0, 0⟩ ⟨1, 1, some 3, none, 0, 0⟩
      (List.replicate 3 0) = .ok (List.replicate 3 1) ∧
    ExponentialBackoff.runSleeps ⟨0, 0⟩ ⟨1, 1, some 3, none, 0, 0⟩
      (List.replicate 4 0) = .error ⟨0, 0⟩ :=
  exp_backoff_max_retries 3 ⟨1, 1, some 3, none, 0, 0⟩ ⟨0, 0⟩ 0 rfl rfl rfl rfl

/-- With no retry ceiling and the deadline reached, `next_sleep_or_reraise`
re-raises. -/
theorem next_sleep_timeout {T : Nat} {b : ExponentialBackoff} {now : Nat}
    (e : Exc) (hta : b.timeout_at = some T) (hmr : b.max_retries = none)
    (hT : T ≤ now) : b.next_sleep_or_reraise now e = .error e := by
  unfold ExponentialBackoff.next_sleep_or_reraise
  rw [hmr, hta]
  simp [hT]

/-- Before the deadline, a backoff satisfying `BInv` returns a positive
sleep and the invariant is preserved. -/
theorem next_sleep_ok_of_binv {T : Nat} {b : ExponentialBackoff} {now : Nat}
    (e : Exc) (hi : BInv T b) (hlt : now < T) :
    ∃ s b2, b.next_sleep_or_reraise now e = .ok (s, b2) ∧ 0 < s ∧ BInv T b2 := by
  obtain ⟨hta, hmr, hmx, hini, hcur⟩ := hi
  have hnot : ¬ (T ≤ now) := by omega
  refine ⟨if b.num_attempts = 0 then b.initial_sleep
          else min (b.current_sleep * 2) b.max_sleep,
    { b with num_attempts := b.num_attempts + 1,
             current_sleep := if b.num_attempts = 0 then b.initial_sleep
                              else min (b.current_sleep * 2) b.max_sleep },
    ?_, ?_, ?_⟩
  · unfold ExponentialBackoff.next_sleep_or_reraise
    rw [hmr, hta]
    simp [hnot]
  · by_cases h0 : b.num_attempts = 0
    · rw [if_pos h0]; exact hini h0
    · rw [if_neg h0]
      have := hcur h0
      exact Nat.lt_min.mpr ⟨by omega, hmx⟩
  · refine ⟨hta, hmr, hmx, fun h => absurd h (by simp), fun _ => ?_⟩
    show 0 < (if b.num_attempts = 0 then b.initial_sleep
              else min (b.current_sleep * 2) b.max_sleep)
    by_cases h0 : b.num_attempts = 0
    · rw [if_pos h0]; exact hini h0
    · rw [if_neg h0]
      have := hcur h0
      exact Nat.lt_min.mpr ⟨by omega, hmx⟩

/-- A deadline-only loop with positive sleeps stops by re-raising within one
sleep interval of the deadline, given fuel `(T - now) + 1`. -/
theorem backoffLoop_deadline (e : Exc) (T : Nat) :
    ∀ (m : Nat) (b : ExponentialBackoff) (now : Nat) (last : Option Nat),
      BInv T b → now < T → T - now ≤ m + 1 →
      ∃ fin ls, backoffLoop e (m + 2) b now last = .reraised fin (some ls) ∧
        T ≤ fin ∧ fin < T + ls := by
  intro m
  induction m with
  | zero =>
    intro b now last hi hlt hm
    obtain ⟨s, b2, hn, hs, hi2⟩ := next_sleep_ok_of_binv e hi hlt
    have hstep : backoffLoop e 2 b now last = backoffLoop e 1 b2 (now + s) (some s) := by
      show (match b.next_sleep_or_reraise now e with
        | .error _ => BLoop.reraised now last
        | .ok (s2, b3) => backoffLoop e 1 b3 (now + s2) (some s2)) = _
      rw [hn]
    have hTle : T ≤ now + s := by omega
    have hn2 : b2.next_sleep_or_reraise (now + s) e = .error e :=
      next_sleep_timeout e hi2.1 hi2.2.1 hTle
    have hstep2 : backoffLoop e 1 b2 (now + s) (some s)
        = .reraised (now + s) (some s) := by
      show (match b2.next_sleep_or_reraise (now + s) e with
        | .error _ => BLoop.reraised (now + s) (some s)
        | .ok (s2, b3) => backoffLoop e 0 b3 (now + s + s2) (some s2)) = _
      rw [hn2]
    exact ⟨now + s, s, by rw [hstep, hstep2], hTle, by omega⟩
  | succ m ih =>
    intro b now last hi hlt hm
    obtain ⟨s, b2, hn, hs, hi2⟩ := next_sleep_ok_of_binv e hi hlt
    have hstep : backoffLoop e (m + 3) b now last
        = backoffLoop e (m + 2) b2 (now + s) (some s) := by
      show (match b.next_sleep_or_reraise now e with
        | .error _ => BLoop.reraised now last
        | .ok (s2, b3) => backoffLoop e (m + 2) b3 (now + s2) (some s2)) = _
      rw [hn]
    rw [show m + 1 + 2 = m + 3 from rfl, hstep]
    by_cases hT : now + s < T
    · exact ih b2 (now + s) (some s) hi2 hT (by omega)
    · push_neg at hT
      have hn2 : b2.next_sleep_or_reraise (now + s) e = .error e :=
        next_sleep_timeout e hi2.1 hi2.2.1 hT
      have hstep2 : backoffLoop e (m + 2) b2 (now + s) (some s)
          = .reraised (now + s) (some s) := by
        show (match b2.next_sleep_or_reraise (now + s) e with
          | .error _ => BLoop.reraised (now + s) (some s)
          | .ok (s2, b3) => backoffLoop e (m + 1) b3 (now + s + s2) (some s2)) = _
        rw [hn2]
      exact ⟨now + s, s, hstep2, hT, by omega⟩

/-- C4 (amended: positive `initial_sleep` and `max_sleep`, loop started
before the deadline): for every ExponentialBackoff with `timeout_at` set, a
retry loop that sleeps each returned duration (deadline check before
sleeping) terminates by re-raising the failure at an instant at least the
deadline and strictly before the deadline plus the last sleep interval; in
the concrete test configuration (1 s initial sleep, 3000 s cap, 300 s
deadline) it stops at 511 s, between the deadline and double the
deadline. -/
theorem exp_backoff_deadline_bound :
    (∀ (b : ExponentialBackoff) (e : Exc) (now0 T : Nat),
      b.num_attempts = 0 → b.timeout_at = some T → b.max_retries = none →
      0 < b.initial_sleep → 0 < b.max_sleep → now0 < T →
      ((backoffLoop e (T - now0 + 1) b now0 none).isReraised = true ∧
       T ≤ (backoffLoop e (T - now0 + 1) b now0 none).finalNow ∧
       (backoffLoop e (T - now0 + 1) b now0 none).finalNow
         < T + ((backoffLoop e (T - now0 + 1) b now0 none).lastSleep.getD 0))) ∧
    (backoffLoop ⟨0, 0⟩ 301 ⟨1, 3000, none, some 300, 0, 0⟩ 0 none
        = .reraised 511 (some 256) ∧ (300 : Nat) ≤ 511 ∧ (511 : Nat) ≤ 2 * 300) := by
  constructor
  · intro b e now0 T hfresh hta hmr hini hmx hlt
    have hfuel : T - now0 + 1 = (T - now0 - 1) + 2 := by omega
    obtain ⟨fin, ls, heq, h1, h2⟩ := backoffLoop_deadline e T (T - now0 - 1) b now0 none
      ⟨hta, hmr, hmx, fun _ => hini, fun h => absurd hfresh h⟩ hlt (by omega)
    rw [hfuel, heq]
    exact ⟨rfl, h1, h2⟩
  · exact ⟨by decide, by decide, by decide⟩

/-- C4 witness: a backoff with `initial_sleep = 1`, `max_sleep = 4` and
deadline 3, started at instant 0, re-raises at instant 3 after a last sleep
of 2. -/
theorem exp_backoff_deadline_bound_witness :
    (backoffLoop ⟨0, 0⟩ 4 ⟨1, 4, none, some 3, 0, 0⟩ 0 none).isReraised = true ∧
    3 ≤ (backoffLoop ⟨0, 0⟩ 4 ⟨1, 4, none, some 3, 0, 0⟩ 0 none).finalNow ∧
    (backoffLoop ⟨0, 0⟩ 4 ⟨1, 4, none, some 3, 0, 0⟩ 0 none).finalNow
      < 3 + ((backoffLoop ⟨0, 0⟩ 4 ⟨1, 4, none, some 3, 0, 0⟩ 0 none).lastSleep.getD 0) :=
  exp_backoff_deadline_bound.1 ⟨1, 4, none, some 3, 0, 0⟩ ⟨0, 0⟩ 0 3
    rfl rfl rfl (by decide) (by decide) (by decide)

/-- A zero-sleep backoff never advances the simulated clock, so a loop
started before the deadline never stops, whatever the fuel. -/
theorem backoffLoop_zero_sleep_stuck (e : Exc) :
    ∀ (fuel : Nat) (b : ExponentialBackoff) (now : Nat) (last : Option Nat),
      b.timeout_at = some 5 → b.max_retries = none → b.initial_sleep = 0 →
      b.max_sleep = 0 → b.current_sleep = 0 → now < 5 →
      (backoffLoop e fuel b now last).isReraised = false := by
  intro fuel
  induction fuel with
  | zero => intro b now last _ _ _ _ _ _; rfl
  | succ fuel ih =>
    intro b now last hta hmr hini hmx hcur hlt
    have hnot : ¬ (5 ≤ now) := by omega
    have hn : b.next_sleep_or_reraise now e
        = .ok (0, { b with num_attempts := b.num_attempts + 1,
                           current_sleep := 0 }) := by
      unfold ExponentialBackoff.next_sleep_or_reraise
      rw [hmr, hta]
      by_cases h0 : b.num_attempts = 0
      · simp [hnot, h0, hini]
      · simp [hnot, h0, hcur, hmx]
    have hstep : backoffLoop e (fuel + 1) b now last
        = backoffLoop e fuel
            { b with num_attempts := b.num_attempts + 1, current_sleep := 0 }
            (now + 0) (some 0) := by
      show (match b.next_sleep_or_reraise now e with
        | .error _ => BLoop.reraised now last
        | .ok (s2, b3) => backoffLoop e fuel b3 (now + s2) (some s2)) = _
      rw [hn]
    rw [hstep]
    exact ih _ (now + 0) (some 0) hta hmr hini hmx rfl (by omega)

/-- C4 counterexample: with `initial_sleep = 0` and `max_sleep = 0` (both
legal duration values) and a deadline of 5 not yet reached, every sleep is
zero, simulated time never advances, and the retry loop never terminates —
the claim as stated fails without requiring positive sleeps. -/
theorem exp_backoff_deadline_counterexample :
    ¬ backoffLoopReraises ⟨0, 0⟩ ⟨0, 0, none, some 5, 0, 0⟩ 0 := by
  rintro ⟨fuel, h⟩
  rw [backoffLoop_zero_sleep_stuck ⟨0, 0⟩ fuel ⟨0, 0, none, some 5, 0, 0⟩ 0 none
    rfl rfl rfl rfl rfl (by decide)] at h
  exact Bool.noConfusion h

/-- One loop iteration on a failing operation call reduces to the
`retryStep` decision. -/
theorem retryLoop_cons_fail (cfg : RetryConfig) (ceiling : Nat)
    (op : Nat → Except Exc Nat) (fuel : Nat) (s : RetryState) (e : Exc)
    (hop : op s.calls = .error e) :
    retryLoop cfg ceiling op (fuel + 1) s
      = match retryStep cfg ceiling e { s with calls := s.calls + 1 } with
        | .error e2 => .failed e2 { s with calls := s.calls + 1 }
        | .ok s2 => retryLoop cfg ceiling op fuel s2 := by
  show (match op s.calls with
    | .ok v => RetryResult.ok v { s with calls := s.calls + 1 }
    | .error e3 =>
      match retryStep cfg ceiling e3 { s with calls := s.calls + 1 } with
      | .error e2 => RetryResult.failed e2 { s with calls := s.calls + 1 }
      | .ok s2 => retryLoop cfg ceiling op fuel s2) = _
  rw [hop]

/-- `retryStep` on a retryable failure with attempts remaining, no overall
deadline and no secondary window: count one attempt and sleep. -/
theorem retryStep_ok_count (cfg : RetryConfig) (ceiling : Nat) (e : Exc)
    (s : RetryState) (hre : e.cls ∈ cfg.retryable)
    (hct : s.attempts + 1 ≤ ceiling) (htd : cfg.retry_timedelta = none)
    (hck : cfg.check_retry e = none) :
    retryStep cfg ceiling e s
      = .ok { s with
              attempts := s.attempts + 1,
              now := s.now + s.sleep,
              sleep := min (s.sleep * 2) SLEEP_MAX,
              sleeps := s.sleeps ++ [s.sleep] } := by
  unfold retryStep
  rw [if_pos hre, if_neg (by omega : ¬ ceiling < s.attempts + 1), htd, hck]
  simp

/-- `retryStep` re-raises when the attempt ceiling is exceeded. -/
theorem retryStep_exhaust (cfg : RetryConfig) (ceiling : Nat) (e : Exc)
    (s : RetryState) (hre : e.cls ∈ cfg.retryable)
    (hct : ceiling < s.attempts + 1) :
    retryStep cfg ceiling e s = .error e := by
  unfold retryStep
  rw [if_pos hre, if_pos hct]

/-- Against an always-failing retryable operation, with no deadlines, the
loop makes exactly `m + 1` more operation calls (where `m` is the remaining
attempt budget) and then propagates the failure. -/
theorem retryLoop_always_fail (cfg : RetryConfig) (ceiling : Nat) (e : Exc)
    (hre : e.cls ∈ cfg.retryable) (htd : cfg.retry_timedelta = none)
    (hck : cfg.check_retry e = none) :
    ∀ (m fuel : Nat) (s : RetryState),
      ceiling = s.attempts + m → m + 1 ≤ fuel →
      (retryLoop cfg ceiling (fun _ => .error e) fuel s).isFailedWith e = true ∧
      (retryLoop cfg ceiling (fun _ => .error e) fuel s).callCount
        = s.calls + m + 1 := by
  intro m
  induction m with
  | zero =>
    intro fuel s hc hf
    obtain ⟨f2, rfl⟩ : ∃ f2, fuel = f2 + 1 := ⟨fuel - 1, by omega⟩
    rw [retryLoop_cons_fail cfg ceiling (fun _ => .error e) f2 s e rfl,
        retryStep_exhaust cfg ceiling e { s with calls := s.calls + 1 } hre
          (by show ceiling < s.attempts + 1; omega)]
    exact ⟨by simp [RetryResult.isFailedWith], rfl⟩
  | succ m ih =>
    intro fuel s hc hf
    obtain ⟨f2, rfl⟩ : ∃ f2, fuel = f2 + 1 := ⟨fuel - 1, by omega⟩
    rw [retryLoop_cons_fail cfg ceiling (fun _ => .error e) f2 s e rfl,
        retryStep_ok_count cfg ceiling e { s with calls := s.calls + 1 } hre
          (by show s.attempts + 1 ≤ ceiling; omega) htd hck]
    show (retryLoop cfg ceiling (fun _ => .error e) f2
        { now := s.now + s.sleep, start := s.start, attempts := s.attempts + 1,
          secondary := s.secondary, sleep := min (s.sleep * 2) SLEEP_MAX,
          calls := s.calls + 1, sleeps := s.sleeps ++ [s.sleep] }).isFailedWith e
        = true ∧
      (retryLoop cfg ceiling (fun _ => .error e) f2
        { now := s.now + s.sleep, start := s.start, attempts := s.attempts + 1,
          secondary := s.secondary, sleep := min (s.sleep * 2) SLEEP_MAX,
          calls := s.calls + 1, sleeps := s.sleeps ++ [s.sleep] }).callCount
        = s.calls + (m + 1) + 1
    have h2 := ih f2
      { now := s.now + s.sleep, start := s.start, attempts := s.attempts + 1,
        secondary := s.secondary, sleep := min (s.sleep * 2) SLEEP_MAX,
        calls := s.calls + 1, sleeps := s.sleeps ++ [s.sleep] }
      (by show ceiling = s.attempts + 1 + m; omega) (by omega)
    refine ⟨h2.1, ?_⟩
    have h3 : (retryLoop cfg ceiling (fun _ => .error e) f2
        { now := s.now + s.sleep, start := s.start, attempts := s.attempts + 1,
          secondary := s.secondary, sleep := min (s.sleep * 2) SLEEP_MAX,
          calls := s.calls + 1, sleeps := s.sleeps ++ [s.sleep] }).callCount
        = s.calls + 1 + m + 1 := h2.2
    omega

/-- C2: for every `n`, a sync Retry whose effective ceiling is `n` — the
configured `num_retries`, or a call-time override which takes precedence
for that call — invoked against an always-failing retryable operation calls
the operation exactly `n + 1` times and then propagates the failure; the
attempt budget is local to each top-level call, so two consecutive
invocations make `2 * (n + 1)` operation calls in total. -/
theorem retry_num_retries (retryable : List Nat) (n dflt t t2 : Nat) (e : Exc)
    (he : e.cls ∈ retryable) :
    ((Retry.call ⟨retryable, dflt, none, fun _ => none⟩ (fun _ => .error e)
        (some n) (n + 2) t).isFailedWith e = true ∧
     (Retry.call ⟨retryable, dflt, none, fun _ => none⟩ (fun _ => .error e)
        (some n) (n + 2) t).callCount = n + 1) ∧
    ((Retry.call ⟨retryable, n, none, fun _ => none⟩ (fun _ => .error e)
        none (n + 2) t).isFailedWith e = true ∧
     (Retry.call ⟨retryable, n, none, fun _ => none⟩ (fun _ => .error e)
        none (n + 2) t).callCount = n + 1) ∧
    (Retry.call ⟨retryable, n, none, fun _ => none⟩ (fun _ => .error e)
        none (n + 2) t).callCount
      + (Retry.call ⟨retryable, n, none, fun _ => none⟩ (fun _ => .error e)
        none (n + 2) t2).callCount = 2 * (n + 1) := by
  have h1 := retryLoop_always_fail ⟨retryable, dflt, none, fun _ => none⟩
    ((some n).getD dflt) e he rfl rfl n (n + 2)
    { now := t, start := t, attempts := 0, secondary := none,
      sleep := SLEEP_BASE, calls := 0, sleeps := [] }
    (by show n = 0 + n; omega) (by omega)
  have h2 := retryLoop_always_fail ⟨retryable, n, none, fun _ => none⟩
    ((none : Option Nat).getD n) e he rfl rfl n (n + 2)
    { now := t, start := t, attempts := 0, secondary := none,
      sleep := SLEEP_BASE, calls := 0, sleeps := [] }
    (by show n = 0 + n; omega) (by omega)
  have h3 := retryLoop_always_fail ⟨retryable, n, none, fun _ => none⟩
    ((none : Option Nat).getD n) e he rfl rfl n (n + 2)
    { now := t2, start := t2, attempts := 0, secondary := none,
      sleep := SLEEP_BASE, calls := 0, sleeps := [] }
    (by show n = 0 + n; omega) (by omega)
  have c1 : (Retry.call ⟨retryable, dflt, none, fun _ => none⟩
      (fun _ => .error e) (some n) (n + 2) t).callCount = 0 + n + 1 := h1.2
  have c2 : (Retry.call ⟨retryable, n, none, fun _ => none⟩
      (fun _ => .error e) none (n + 2) t).callCount = 0 + n + 1 := h2.2
  have c3 : (Retry.call ⟨retryable, n, none, fun _ => none⟩
      (fun _ => .error e) none (n + 2) t2).callCount = 0 + n + 1 := h3.2
  exact ⟨⟨h1.1, by omega⟩, ⟨h2.1, by omega⟩, by omega⟩

/-- C2 witness: three retryable-class-3 failures with ceiling 2 (either via
override over default 9 or as the configured default) give 3 calls each and
6 in total. -/
theorem retry_num_retries_witness :
    ((Retry.call ⟨[3], 9, none, fun _ => none⟩ (fun _ => .error ⟨3, 1⟩)
        (some 2) 4 0).isFailedWith ⟨3, 1⟩ = true ∧
     (Retry.call ⟨[3], 9, none, fun _ => none⟩ (fun _ => .error ⟨3, 1⟩)
        (some 2) 4 0).callCount = 3) ∧
    ((Retry.call ⟨[3], 2, none, fun _ => none⟩ (fun _ => .error ⟨3, 1⟩)
        none 4 0).isFailedWith ⟨3, 1⟩ = true ∧
     (Retry.call ⟨[3], 2, none, fun _ => none⟩ (fun _ => .error ⟨3, 1⟩)
        none 4 0).callCount = 3) ∧
    (Retry.call ⟨[3], 2, none, fun _ => none⟩ (fun _ => .error ⟨3, 1⟩)
        none 4 0).callCount
      + (Retry.call ⟨[3], 2, none, fun _ => none⟩ (fun _ => .error ⟨3, 1⟩)
        none 4 100).callCount = 2 * 3 :=
  retry_num_retries [3] 2 9 0 100 ⟨3, 1⟩ (by decide)

/-- C9: a sync Retry invocation whose operation fails with a class not in
`retryable_exceptions` re-raises that failure on its first occurrence: the
operation is called exactly once, no retry is attempted, and no sleep is
consumed. -/
theorem retry_nonretryable (cfg : RetryConfig) (op : Nat → Except Exc Nat)
    (e : Exc) (ov : Option Nat) (fuel t : Nat)
    (hop : op 0 = .error e) (hne : e.cls ∉ cfg.retryable) :
    Retry.call cfg op ov (fuel + 1) t
      = .failed e { now := t, start := t, attempts := 0, secondary := none,
                    sleep := SLEEP_BASE, calls := 1, sleeps := [] } ∧
    (Retry.call cfg op ov (fuel + 1) t).callCount = 1 ∧
    (Retry.call cfg op ov (fuel + 1) t).sleepsList = [] := by
  have hstep : ∀ s : RetryState,
      retryStep cfg (ov.getD cfg.num_retries) e s = .error e := by
    intro s
    unfold retryStep
    rw [if_neg hne]
  have hmain : Retry.call cfg op ov (fuel + 1) t
      = .failed e { now := t, start := t, attempts := 0, secondary := none,
                    sleep := SLEEP_BASE, calls := 1, sleeps := [] } := by
    show retryLoop cfg (ov.getD cfg.num_retries) op (fuel + 1)
      { now := t, start := t, attempts := 0, secondary := none,
        sleep := SLEEP_BASE, calls := 0, sleeps := [] } = _
    rw [retryLoop_cons_fail cfg (ov.getD cfg.num_retries) op fuel
      { now := t, start := t, attempts := 0, secondary := none,
        sleep := SLEEP_BASE, calls := 0, sleeps := [] } e hop,
      hstep]
  exact ⟨hmain, by rw [hmain]; rfl, by rw [hmain]; rfl⟩

/-- C9 witness: a class-4 failure against a Retry that only retries class 3
is propagated after exactly one call with no sleeps. -/
theorem retry_nonretryable_witness :
    Retry.call ⟨[3], 5, none, fun _ => none⟩ (fun _ => .error ⟨4, 0⟩)
        none 8 2
      = .failed ⟨4, 0⟩ { now := 2, start := 2, attempts := 0,
                         secondary := none, sleep := SLEEP_BASE, calls := 1,
                         sleeps := [] } ∧
    (Retry.call ⟨[3], 5, none, fun _ => none⟩ (fun _ => .error ⟨4, 0⟩)
        none 8 2).callCount = 1 ∧
    (Retry.call ⟨[3], 5, none, fun _ => none⟩ (fun _ => .error ⟨4, 0⟩)
        none 8 2).sleepsList = [] :=
  retry_nonretryable ⟨[3], 5, none, fun _ => none⟩ (fun _ => .error ⟨4, 0⟩)
    ⟨4, 0⟩ none 7 2 rfl (by decide)

/-- C1: the secondary deadline is anchored at "now + returned duration" on
the first qualifying failure and never re-anchored on later failures; with
a 10-minute secondary window, a 7-hour `retry_timedelta` and a 10000-retry
ceiling against an always-failing retryable operation, the invocation
propagates the failure with total elapsed time between 10 and 20 minutes
(600 and 1200 seconds) — close to the secondary window, not the primary
deadline. -/
theorem retry_secondary_deadline :
    (∀ (cfg : RetryConfig) (ceiling : Nat) (e : Exc) (s s2 : RetryState)
        (a : Nat), s.secondary = some a →
      retryStep cfg ceiling e s = .ok s2 → s2.secondary = some a) ∧
    (∀ (cfg : RetryConfig) (ceiling : Nat) (e : Exc) (s s2 : RetryState)
        (d : Nat), s.secondary = none → cfg.check_retry e = some d →
      retryStep cfg ceiling e s = .ok s2 → s2.secondary = some (s.now + d)) ∧
    ((Retry.call cfgSecondary (fun _ => .error ⟨0, 0⟩) none 100 0).isFailedWith
        ⟨0, 0⟩ = true ∧
     600 ≤ (Retry.call cfgSecondary (fun _ => .error ⟨0, 0⟩) none 100 0).finalNow ∧
     (Retry.call cfgSecondary (fun _ => .error ⟨0, 0⟩) none 100 0).finalNow
       < 1200) := by
  refine ⟨?_, ?_, by decide, by decide, by decide⟩
  · intro cfg ceiling e s s2 a hsec h
    unfold retryStep at h
    split at h
    · split at h
      · exact absurd h (by simp)
      · split at h
        · exact absurd h (by simp)
        · split at h
          · simp only [Except.ok.injEq] at h
            rw [← h]
            exact hsec
          · rename_i d hd
            rw [hsec] at h
            simp only [Option.getD_some] at h
            split at h
            · exact absurd h (by simp)
            · simp only [Except.ok.injEq] at h
              rw [← h]
    · exact absurd h (by simp)
  · intro cfg ceiling e s s2 d hsec hck h
    unfold retryStep at h
    split at h
    · split at h
      · exact absurd h (by simp)
      · split at h
        · exact absurd h (by simp)
        · split at h
          · rename_i hnone
            rw [hck] at hnone
            exact absurd hnone (by simp)
          · rename_i d2 hd2
            rw [hck] at hd2
            simp only [Option.some.injEq] at hd2
            rw [hsec] at h
            simp only [Option.getD_none] at h
            split at h
            · exact absurd h (by simp)
            · simp only [Except.ok.injEq] at h
              rw [← h, hd2]
    · exact absurd h (by simp)

/-- C1 witness: a step on a state whose secondary anchor is already 5
returns a state whose anchor is still 5. -/
theorem retry_secondary_deadline_witness :
    ({ now := 1, start := 0, attempts := 1, secondary := some 5, sleep := 2,
       calls := 1, sleeps := [1] } : RetryState).secondary = some 5 :=
  retry_secondary_deadline.1 ⟨[0], 10, none, fun _ => none⟩ 10 ⟨0, 0⟩
    { now := 0, start := 0, attempts := 0, secondary := some 5, sleep := 1,
      calls := 1, sleeps := [] }
    { now := 1, start := 0, attempts := 1, secondary := some 5, sleep := 2,
      calls := 1, sleeps := [1] } 5 rfl (by decide)

/-- C5: `retry_async` with a Backoff yielding durations `d1`, `d2` and
then propagating, against an always-failing operation, suspends exactly for
`d1` then `d2`, calls the operation three times with its arguments
forwarded verbatim, and enters and exits the Backoff's scope exactly once;
with an operation succeeding on the third attempt the same single
enter/exit pair brackets the loop. -/
theorem retry_async_schedule {Args : Type} (args : Args) (d1 d2 v : Nat)
    (esc : Exc) (efail : Nat → Exc) :
    retry_async scriptedBackoff [.ok d1, .ok d2, .error esc]
      (fun i _ => .error (efail i)) args 4
      = ([AEvent.enter, AEvent.callOp args, AEvent.suspend d1,
          AEvent.callOp args, AEvent.suspend d2, AEvent.callOp args,
          AEvent.exitScope], some (.error esc)) ∧
    retry_async scriptedBackoff [.ok d1, .ok d2]
      (fun i _ => if i < 2 then .error (efail i) else .ok v) args 4
      = ([AEvent.enter, AEvent.callOp args, AEvent.suspend d1,
          AEvent.callOp args, AEvent.suspend d2, AEvent.callOp args,
          AEvent.exitScope], some (.ok v)) := by
  constructor
  · rfl
  · rfl
